import Mathlib

/-!
Verification of the sentinel repository's synthesis, normalization and
classification core, shallowly embedded in Lean 4.

The embedding follows the Python source:
  - main_agent.py: validate_and_fix_issue_data, extract_json_from_response,
    synthesize_analysis, create_smart_fallback_from_responses,
    parse_direct_response (title cleaning of the manual fallback path)
  - uagent/metta/utils.py: classify_project_type, process_repository_query
  - uagent/metta/knowledge.py: the seeded fact triples
  - uagent2/pr_metta/repositoryrag.py: classify_pr_by_files,
    analyze_pr_title_description, get_comprehensive_analysis_plan
  - uagent2/pr_metta/knowledge.py: the seeded file_pattern triples

Python dictionaries holding JSON-ish data are embedded as association
lists with Python dict assignment semantics (update in place when the key
exists, append otherwise).  Python string containment is embedded as
contiguous-substring search on character lists; str.lower is embedded as
the ASCII character lowering (all strings relevant to the claims are
ASCII).
-/

/-- A JSON-ish value as produced by json.loads and manipulated by the
defaulting pass.  Nested objects carry their field list. -/
inductive JVal where
  | str (s : String)
  | num (n : Int)
  | bool (b : Bool)
  | null
  | arr (elems : List JVal)
  | obj (fields : List (String × JVal))

/-- A Python dict with string keys, as an association list (keys unique,
insertion ordered). -/
abbrev Dict := List (String × JVal)

/-- Python truthiness of a string: non-emptiness, tested on the
character list. -/
def strIsEmpty (s : String) : Bool := s.data.isEmpty

/-- Python truthiness of a JSON value (bool(v)). -/
def truthy : JVal → Bool
  | .str s => !strIsEmpty s
  | .num n => n != 0
  | .bool b => b
  | .null => false
  | .arr l => !l.isEmpty
  | .obj l => !l.isEmpty

/-- d[k] lookup returning none when the key is absent. -/
def lookupKey : Dict → String → Option JVal
  | [], _ => none
  | (k', v) :: rest, k => if k' = k then some v else lookupKey rest k

/-- d[k] = v assignment: replace the value in place when the key exists,
append the pair otherwise (Python dict semantics). -/
def setKey : Dict → String → JVal → Dict
  | [], k, v => [(k, v)]
  | (k', v') :: rest, k, v =>
      if k' = k then (k, v) :: rest else (k', v') :: setKey rest k v

/-- "k in d" membership test. -/
def hasKey (d : Dict) (k : String) : Bool :=
  (lookupKey d k).isSome

/-- "k in d and bool(d[k])": key present with a truthy value. -/
def truthyAt (d : Dict) (k : String) : Bool :=
  match lookupKey d k with
  | some v => truthy v
  | none => false

/-! ## validate_and_fix_issue_data (main_agent.py lines 640-683) -/

/-- The defaults table of validate_and_fix_issue_data, in source order. -/
def canonicalDefaults : List (String × JVal) :=
  [("title", .str "AI-Generated Repository Enhancement"),
   ("body", .str "AI-generated feature suggestion based on repository analysis."),
   ("difficulty", .str "Medium"),
   ("priority", .str "Medium"),
   ("labels", .arr [.str "enhancement", .str "ai-generated"]),
   ("implementation_estimate", .str "2-3 weeks"),
   ("technical_requirements", .arr [.str "Implementation planning", .str "Code development"]),
   ("acceptance_criteria", .arr [.str "Feature implemented", .str "Tests pass"])]

/-- The eight canonical field names. -/
def canonicalKeys : List String := canonicalDefaults.map Prod.fst

/-- One step of the defaults loop: if key not in issue_data or not
issue_data[key], substitute the default. -/
def ensureKey (d : Dict) (k : String) (v : JVal) : Dict :=
  if truthyAt d k then d else setKey d k v

/-- The "ensure all required fields exist" loop over the defaults table. -/
def ensureDefaults (d : Dict) : Dict :=
  canonicalDefaults.foldl (fun d p => ensureKey d p.1 p.2) d

/-- The enum coercion: if issue_data[k] not in allowed, set it to Medium.
A non-string value never equals one of the allowed strings, so it is
coerced; after ensureDefaults the key is always present, so the missing
branch is unreachable in the composed pipeline (it also coerces). -/
def fixEnum (d : Dict) (k : String) (allowed : List String) : Dict :=
  match lookupKey d k with
  | some (.str s) => if allowed.contains s then d else setKey d k (.str "Medium")
  | _ => setKey d k (.str "Medium")

/-- The isinstance(..., list) repair: replace the value wholesale with the
default sequence when it is not a list. -/
def fixArr (d : Dict) (k : String) (defv : JVal) : Dict :=
  match lookupKey d k with
  | some (.arr _) => d
  | _ => setKey d k defv

/-- validate_and_fix_issue_data: the defaulting pass of the normalizer. -/
def validateAndFix (d : Dict) : Dict :=
  let d1 := ensureDefaults d
  let d2 := fixEnum d1 "difficulty" ["Easy", "Medium", "Hard"]
  let d3 := fixEnum d2 "priority" ["Low", "Medium", "High"]
  let d4 := fixArr d3 "labels" (.arr [.str "enhancement", .str "ai-generated"])
  let d5 := fixArr d4 "technical_requirements"
      (.arr [.str "Implementation planning", .str "Code development"])
  fixArr d5 "acceptance_criteria" (.arr [.str "Feature implemented", .str "Tests pass"])

/-- The invariant established by validate_and_fix_issue_data: every
canonical field is present with a truthy value, difficulty and priority
are strings inside their enums, the three sequence fields are non-empty
lists. -/
def CompleteDict (d : Dict) : Prop :=
  truthyAt d "title" = true ∧
  truthyAt d "body" = true ∧
  truthyAt d "implementation_estimate" = true ∧
  (∃ s, lookupKey d "difficulty" = some (.str s) ∧ s ∈ ["Easy", "Medium", "Hard"]) ∧
  (∃ s, lookupKey d "priority" = some (.str s) ∧ s ∈ ["Low", "Medium", "High"]) ∧
  (∃ l, lookupKey d "labels" = some (.arr l) ∧ l ≠ []) ∧
  (∃ l, lookupKey d "technical_requirements" = some (.arr l) ∧ l ≠ []) ∧
  (∃ l, lookupKey d "acceptance_criteria" = some (.arr l) ∧ l ≠ [])

/-! ## extract_json_from_response (main_agent.py lines 599-638) and the
inline extraction check of synthesize_analysis (lines 446-510) -/

/-- The minimum field set required by extract_json_from_response. -/
def requiredFieldsExtract : List String := ["title", "body", "difficulty", "priority"]

/-- The field set required by the inline check of synthesize_analysis. -/
def requiredFieldsSynth : List String := ["title", "body", "difficulty", "priority", "labels"]

/-- The outcome of one model attempt, after the response text has been
stripped of markdown fences and sliced between the first opening and last
closing brace.  transportError stands for a raised requests exception,
noJson for the absence of a brace-delimited candidate, badJson for a
json.loads failure, parsed for a successful parse of the candidate. -/
inductive AttemptOutcome where
  | transportError
  | noJson
  | badJson
  | parsed (d : Dict)

/-- extract_json_from_response after json.loads: reject unless the four
minimum fields are present, then run the defaulting pass; every failure
of cleaning or parsing yields none. -/
def extractJsonFromResponse (parseResult : Option Dict) : Option Dict :=
  match parseResult with
  | none => none
  | some issueData =>
      if requiredFieldsExtract.all (fun f => hasKey issueData f)
      then some (validateAndFix issueData)
      else none

/-- One attempt of the synthesize_analysis loop: the five-field check
(labels included) followed by the defaulting pass; every failure mode of
the attempt maps to none. -/
def processAttempt : AttemptOutcome → Option Dict
  | .transportError => none
  | .noJson => none
  | .badJson => none
  | .parsed d =>
      if requiredFieldsSynth.all (fun f => hasKey d f)
      then some (validateAndFix d)
      else none

/-! ## Python string helpers -/

/-- str.lower, restricted to the ASCII lowering of Char.toLower. -/
def pyLower (s : String) : String := String.mk (s.data.map Char.toLower)

/-- Python substring containment (needle in hay): the needle occurs
contiguously at some offset of hay. -/
def strContains (hay needle : String) : Bool :=
  (List.range (hay.data.length + 1)).any (fun i => needle.data.isPrefixOf (hay.data.drop i))

/-! ## create_smart_fallback_from_responses (main_agent.py lines 512-597) -/

/-- " ".join(agent_responses).lower() -/
def combinedText (agentResponses : List String) : String :=
  pyLower (String.intercalate " " agentResponses)

/-- The fixed keyword table of the fallback, in source order. -/
def featurePatterns : List (String × List String) :=
  [("authentication", ["auth", "login", "user", "session", "oauth", "jwt"]),
   ("search", ["search", "filter", "find", "query", "lookup"]),
   ("realtime", ["realtime", "websocket", "live", "push", "notification"]),
   ("api", ["api", "rest", "endpoint", "rate limit", "caching"]),
   ("ui", ["ui", "interface", "frontend", "user experience", "ux"]),
   ("database", ["database", "db", "storage", "persistence", "data"]),
   ("testing", ["test", "testing", "unit test", "integration"]),
   ("security", ["security", "secure", "encryption", "validation"])]

/-- sum(1 for keyword in keywords if keyword in combined_text): the count
of table keywords occurring in the text (each keyword counted once). -/
def keywordScore (text : String) (keywords : List String) : Nat :=
  (keywords.filter (fun kw => strContains text kw)).length

/-- The feature_scores dict: categories with a positive score, in table
order. -/
def featureScores (agentResponses : List String) : List (String × Nat) :=
  (featurePatterns.map
    (fun p => (p.1, keywordScore (combinedText agentResponses) p.2))).filter
    (fun x => 0 < x.2)

/-- The scan underlying Python max with a key function: keep the current
best, replace it only on a strictly greater value, so the first entry
attaining the maximum wins. -/
def pickMax (b : String × Nat) : List (String × Nat) → String × Nat
  | [] => b
  | y :: ys => if b.2 < y.2 then pickMax y ys else pickMax b ys

/-- max(feature_scores, key=feature_scores.get) over the
insertion-ordered score dict, none when the dict is empty. -/
def pyMaxByVal : List (String × Nat) → Option (String × Nat)
  | [] => none
  | x :: xs => some (pickMax x xs)

/-- The category the fallback selects: the scored maximum, or search when
no keyword scored. -/
def bestFeature (agentResponses : List String) : String :=
  match pyMaxByVal (featureScores agentResponses) with
  | some p => p.1
  | none => "search"

/-- A pre-written fallback template. -/
structure Template where
  title : String
  body : String
  difficulty : String
  priority : String

/-- The search template, also the default of feature_templates.get. -/
def searchTemplate : Template :=
  { title := "Add Advanced Search and Filtering Capabilities",
    body := "Implement full-text search with intelligent filtering to help users quickly find relevant content and improve overall user experience.",
    difficulty := "Easy",
    priority := "Medium" }

/-- The feature_templates dict: only four of the eight scored categories
have a template. -/
def featureTemplates : List (String × Template) :=
  [("authentication",
    { title := "Implement User Authentication System",
      body := "Add comprehensive user authentication with secure login, registration, and session management to protect user data and enable personalized experiences.",
      difficulty := "Medium",
      priority := "High" }),
   ("search", searchTemplate),
   ("realtime",
    { title := "Add Real-time Updates and Notifications",
      body := "Implement WebSocket-based real-time updates to keep users informed of changes and improve application responsiveness.",
      difficulty := "Hard",
      priority := "Medium" }),
   ("api",
    { title := "Implement REST API with Rate Limiting",
      body := "Create a robust REST API with proper rate limiting, caching, and documentation to enable third-party integrations and improve performance.",
      difficulty := "Medium",
      priority := "Medium" })]

/-- create_smart_fallback_from_responses: the deterministic fallback
record. -/
def createSmartFallback (agentResponses : List String) (repoUrl : String) : Dict :=
  let best := bestFeature agentResponses
  let tmpl := (featureTemplates.lookup best).getD searchTemplate
  [("title", .str tmpl.title),
   ("body", .str (tmpl.body ++ "\n\nBased on analysis of: " ++ repoUrl ++
     "\n\nThis suggestion was derived from analyzing multiple AI agent responses that highlighted the importance of " ++ best ++ " functionality.")),
   ("difficulty", .str tmpl.difficulty),
   ("priority", .str tmpl.priority),
   ("labels", .arr [.str "enhancement", .str "ai-generated", .str best]),
   ("implementation_estimate", .str "2-4 weeks"),
   ("technical_requirements", .arr
     [.str ("Research " ++ best ++ " best practices"),
      .str "Design system architecture",
      .str "Implement core functionality",
      .str "Add comprehensive testing"]),
   ("acceptance_criteria", .arr
     [.str (tmpl.title ++ " is fully implemented"),
      .str "All functionality works as expected",
      .str "Tests pass with >90% coverage",
      .str "Documentation is complete"])]

/-- The greatest score in a scored table. -/
def listMaxVal : List (String × Nat) → Nat
  | [] => 0
  | x :: xs => max x.2 (listMaxVal xs)

/-- Rendering of the claim wording for the fallback pick, written from
the spec sentence, to be compared with bestFeature: the first category of
the table attaining the maximal score, or search when no keyword hits at
all. -/
def claimedBestFeature (agentResponses : List String) : String :=
  let scored := featurePatterns.map
    (fun p => (p.1, keywordScore (combinedText agentResponses) p.2))
  if listMaxVal scored = 0 then "search"
  else
    match scored.find? (fun x => listMaxVal scored ≤ x.2) with
    | some p => p.1
    | none => "search"

/-! ## The synthesize_analysis state machine (main_agent.py lines 414-510) -/

/-- The terminal states of a synthesis run. -/
inductive SynthResult where
  | success (d : Dict)
  | fallback (d : Dict)

/-- The retry loop body: take the first attempt that normalizes. -/
def synthLoop : List AttemptOutcome → Option Dict
  | [] => none
  | a :: rest =>
      match processAttempt a with
      | some d => some d
      | none => synthLoop rest

/-- synthesize_analysis over an oracle of attempt outcomes (each model
call with its cleaning and parsing is external transport): for attempt in
range(3), return the first normalized record, otherwise the smart
fallback. -/
def synthesizeAnalysis (attempts : Nat → AttemptOutcome)
    (agentResponses : List String) (repoUrl : String) : SynthResult :=
  match synthLoop ((List.range 3).map attempts) with
  | some d => .success d
  | none => .fallback (createSmartFallback agentResponses repoUrl)

/-! ## classify_project_type (uagent/metta/utils.py lines 40-123) -/

/-- The repository metadata consumed by the classifier, as built by
analyze_repository_basic. -/
structure RepoData where
  name : String
  language : String
  description : String
  topics : List String

/-- AI/ML description keywords, highest priority group. -/
def aiKeywords : List String :=
  ["ai/ml", "machine learning", "ml", "ai", "artificial intelligence",
   "neural", "model", "tensorflow", "pytorch"]

/-- Scraping description keywords. -/
def scrapingKeywords : List String :=
  ["scrap", "scraping", "crawler", "spider", "harvest", "data collection", "web scraping"]

/-- Documentation description keywords. -/
def docKeywords : List String :=
  ["documentation", "docs", "guide", "tutorial", "reference", "manual", "learning resource"]

/-- Scraping name keywords (priority 2). -/
def scrapingNameKeywords : List String :=
  ["scrap", "crawler", "spider", "harvest", "trends", "twitter", "instagram", "facebook"]

/-- Competitive programming name keywords. -/
def cpKeywords : List String :=
  ["leet", "leetcode", "algorithm", "competitive", "contest", "cph", "coding"]

/-- Documentation name keywords. -/
def docNameKeywords : List String :=
  ["docs", "documentation", "guide", "tutorial", "reference", "manual"]

/-- AI/ML topic tags (priority 3, exact membership in the topic list). -/
def aiTopicKeywords : List String :=
  ["machine-learning", "ai", "ml", "tensorflow", "pytorch", "scikit-learn", "data-science"]

/-- Mobile topic tags. -/
def mobileTopics : List String :=
  ["android", "ios", "mobile", "flutter", "react-native"]

/-- Priorities 2 to 4 of classify_project_type: name patterns, topic
tags, language hints, then the web_app default.  The source nests the
topic checks under an emptiness guard and the language checks under a
non-empty guard; the flattened conditions here are the same tests. -/
def classifyByNameTopicsLang (name language : String) (topics : List String) : String :=
  if scrapingNameKeywords.any (fun kw => strContains name kw) then "scraping"
  else if cpKeywords.any (fun kw => strContains name kw) then "competitive_programming"
  else if docNameKeywords.any (fun kw => strContains name kw) then "documentation"
  else if !topics.isEmpty && aiTopicKeywords.any (fun kw => topics.contains kw) then "ai_ml"
  else if !topics.isEmpty && mobileTopics.any (fun kw => topics.contains kw) then "mobile_app"
  else if !strIsEmpty language &&
      (language == "swift" || language == "kotlin" || language == "dart") then "mobile_app"
  else if !strIsEmpty language && language == "solidity" then "blockchain"
  else "web_app"

/-- classify_project_type on fetched repository data: lower every field,
then run the description keyword groups first (AI/ML, then scraping, then
documentation), falling through to the name/topic/language cascade. -/
def classifyProjectType (rd : RepoData) : String :=
  let name := pyLower rd.name
  let language := pyLower rd.language
  let description := pyLower rd.description
  let topics := (rd.topics.filter (fun t => !strIsEmpty t)).map pyLower
  if !strIsEmpty description then
    if aiKeywords.any (fun kw => strContains description kw) then "ai_ml"
    else if scrapingKeywords.any (fun kw => strContains description kw) then "scraping"
    else if docKeywords.any (fun kw => strContains description kw) then "documentation"
    else classifyByNameTopicsLang name language topics
  else classifyByNameTopicsLang name language topics

/-- The defensive None guard of classify_project_type. -/
def classifyProjectTypeOpt : Option RepoData → String
  | none => "web_app"
  | some rd => classifyProjectType rd

/-! ## The seeded knowledge graph (uagent/metta/knowledge.py) and
process_repository_query (uagent/metta/utils.py lines 125-169) -/

/-- The project_type fact triples seeded by initialize_knowledge_graph,
in seeding order. -/
def projectTypeFacts : List (String × String) :=
  [("web_app", "authentication"),
   ("web_app", "api_documentation"),
   ("web_app", "testing_framework"),
   ("ai_ml", "model_versioning"),
   ("ai_ml", "data_pipeline"),
   ("ai_ml", "experiment_tracking"),
   ("mobile_app", "push_notifications"),
   ("mobile_app", "offline_support"),
   ("scraping", "data_storage"),
   ("scraping", "scheduled_scraping"),
   ("scraping", "proxy_rotation"),
   ("scraping", "data_visualization"),
   ("scraping", "rate_limiting"),
   ("scraping", "error_handling"),
   ("competitive_programming", "solution_organization"),
   ("competitive_programming", "automated_testing"),
   ("competitive_programming", "complexity_analysis"),
   ("documentation", "search_functionality"),
   ("documentation", "content_organization"),
   ("documentation", "interactive_examples")]

/-- The feature description fact triples seeded by
initialize_knowledge_graph. -/
def featureFacts : List (String × String) :=
  [("authentication", "User authentication and authorization system with login/logout functionality"),
   ("api_documentation", "Interactive API documentation using Swagger/OpenAPI for better developer experience"),
   ("testing_framework", "Comprehensive testing suite with unit, integration, and end-to-end tests"),
   ("model_versioning", "ML model versioning system for tracking experiments and model rollbacks"),
   ("data_pipeline", "Automated data processing pipeline for ETL operations and data validation"),
   ("experiment_tracking", "ML experiment tracking system to monitor model performance and metrics"),
   ("push_notifications", "Push notification system for real-time user engagement and updates"),
   ("offline_support", "Offline functionality support for seamless user experience without internet"),
   ("data_storage", "Persistent data storage with database integration for scraped data management"),
   ("scheduled_scraping", "Automated scheduling system for regular data collection with cron jobs"),
   ("proxy_rotation", "Proxy rotation system to avoid IP blocking and ensure continuous scraping"),
   ("data_visualization", "Interactive dashboards and charts to visualize scraped data trends"),
   ("rate_limiting", "Smart rate limiting to respect website policies and avoid detection"),
   ("error_handling", "Robust error handling with retry mechanisms and failure notifications"),
   ("solution_organization", "Organize solutions by problem difficulty, topic, and platform with clear folder structure"),
   ("automated_testing", "Automated test cases to verify solution correctness with multiple test inputs"),
   ("complexity_analysis", "Time and space complexity analysis documentation for each solution"),
   ("search_functionality", "Advanced search with filters for programming languages, topics, and difficulty"),
   ("content_organization", "Hierarchical content organization with categories and tagging system"),
   ("interactive_examples", "Interactive code examples with live execution and editing capabilities"),
   ("ci_cd_pipeline", "Continuous Integration/Continuous Deployment pipeline for automated testing and deployment"),
   ("monitoring_dashboard", "Real-time monitoring dashboard for system health and performance metrics")]

/-- query_project_features: the MeTTa match of (project_type pt $feature)
modelled as exact-match triple lookup over the seeded facts in seeding
order, followed by the dedup extraction loop of the RAG. -/
def queryProjectFeatures (projectType : String) : List String :=
  ((projectTypeFacts.filter (fun f => f.1 == projectType)).map Prod.snd).foldl
    (fun acc s => if !s.isEmpty && !acc.contains s then acc ++ [s] else acc) []

/-- get_feature_description: exact-match triple lookup of the seeded
feature descriptions. -/
def getFeatureDescription (featureName : String) : List String :=
  (featureFacts.filter (fun f => f.1 == featureName)).map Prod.snd

/-- str.title on one word: upper the first character, lower the rest. -/
def pyTitleWord (w : List Char) : List Char :=
  match w with
  | [] => []
  | c :: rest => c.toUpper :: rest.map Char.toLower

/-- str.split on a single space. -/
def splitOnSpace (l : List Char) : List (List Char) :=
  l.foldr
    (fun c acc =>
      match acc with
      | [] => [[c]]
      | w :: ws => if c = ' ' then [] :: w :: ws else (c :: w) :: ws)
    [[]]

/-- str.title on a space-separated string (the feature names here are
single alphabetic runs per word, where this agrees with Python). -/
def pyTitle (s : String) : String :=
  String.mk (List.intercalate [' '] ((splitOnSpace s.data).map pyTitleWord))

/-- str.replace of the single character underscore by a space. -/
def replaceUnderscore (s : String) : String :=
  String.mk (s.data.map (fun c => if c = '_' then ' ' else c))

/-- One entry of the final feature list. -/
structure FeatureEntry where
  name : String
  description : String
deriving DecidableEq

/-- The name/description record built per feature by
process_repository_query. -/
def featureEntryOf (feature : String) : FeatureEntry :=
  { name := pyTitle (replaceUnderscore feature),
    description :=
      match getFeatureDescription feature with
      | d :: _ => d
      | [] => "Enhancement for " ++ replaceUnderscore feature }

/-- Steps 2 to 4 of process_repository_query, applied to already-fetched
repository metadata (step 1, the GitHub fetch, is external transport):
classify, query the fact store, build the entries, and append the two
generic fallback entries only when no project-specific feature at all was
found. -/
def processRepositoryQuery (rd : RepoData) : List FeatureEntry :=
  let projectType := classifyProjectType rd
  let features := queryProjectFeatures projectType
  let result := features.map featureEntryOf
  if result.isEmpty then
    [{ name := "CI/CD Pipeline",
       description := "Continuous Integration/Continuous Deployment pipeline for automated testing and deployment" },
     { name := "Monitoring Dashboard",
       description := "Real-time monitoring dashboard for system health and performance metrics" }]
  else result

/-! ## Pull request classification (uagent2/pr_metta/repositoryrag.py and
knowledge.py) -/

/-- The title/description keyword table of analyze_pr_title_description,
in source order. -/
def typeKeywords : List (String × List String) :=
  [("bugfix", ["fix", "bug", "issue", "error", "problem", "resolve"]),
   ("feature", ["add", "new", "implement", "feature", "enhance"]),
   ("refactor", ["refactor", "restructure", "reorganize", "cleanup"]),
   ("docs", ["documentation", "readme", "docs", "guide"]),
   ("security", ["security", "vulnerability", "auth", "permission"]),
   ("performance", ["performance", "optimize", "speed", "benchmark"])]

/-- analyze_pr_title_description: keyword classification of the PR title
and body, defaulting to feature. -/
def analyzePrTitleDescription (title description : String) : List String :=
  let combined := pyLower (title ++ " " ++ description)
  let prTypes := typeKeywords.foldl
    (fun acc p => if p.2.any (fun kw => strContains combined kw) then acc ++ [p.1] else acc) []
  if prTypes.isEmpty then ["feature"] else prTypes

/-- The file name patterns probed by classify_pr_by_files, in source
order. -/
def filePatterns : List String :=
  ["test", "spec", "README", "doc", "security", "auth", "perf", "benchmark"]

/-- The file_pattern fact triples seeded by
initialize_pr_knowledge_graph. -/
def filePatternFacts : List (String × String) :=
  [("test", "feature"),
   ("spec", "feature"),
   ("README", "docs"),
   ("doc", "docs"),
   ("security", "security"),
   ("auth", "security"),
   ("perf", "performance"),
   ("benchmark", "performance")]

/-- The MeTTa match of (file_pattern p $type), modelled as exact-match
triple lookup over the seeded facts. -/
def queryFilePattern (p : String) : List String :=
  (filePatternFacts.filter (fun f => f.1 == p)).map Prod.snd

/-- classify_pr_by_files: probe each changed file against the lowered
patterns and collect the fact-store types without duplicates, defaulting
to feature. -/
def classifyPrByFiles (fileChanges : List String) : List String :=
  let prTypes := fileChanges.foldl
    (fun acc filePath =>
      filePatterns.foldl
        (fun acc pat =>
          if strContains (pyLower filePath) (pyLower pat) then
            (queryFilePattern pat).foldl
              (fun acc t => if !t.isEmpty && !acc.contains t then acc ++ [t] else acc) acc
          else acc)
        acc)
    []
  if prTypes.isEmpty then ["feature"] else prTypes

/-- The type union of get_comprehensive_analysis_plan:
list(set(title_types + file_types)).  Python set iteration order is
unspecified; this dedup keeps first occurrences, one admissible order;
the claims concern only membership and duplicate-freedom. -/
def comprehensivePrTypes (title description : String) (fileChanges : List String) : List String :=
  (analyzePrTitleDescription title description ++ classifyPrByFiles fileChanges).foldl
    (fun acc t => if !acc.contains t then acc ++ [t] else acc) []

/-! ## Title cleaning of the manual parse path (main_agent.py lines
944-961) -/

/-- A Python word character in the ASCII range. -/
def isWordChar (c : Char) : Bool := c.isAlphanum || c == '_'

/-- The title cleanup of the regex fallback of parse_direct_response:
strip leading non-word characters, keep the text before the first
period, and truncate to 77 characters plus an ellipsis when longer than
80. -/
def cleanDirectTitle (t : String) : String :=
  let t1 := String.mk (t.data.dropWhile (fun c => !isWordChar c))
  let t2 := String.mk (t1.data.takeWhile (fun c => c != '.'))
  if t2.length > 80 then String.mk (t2.data.take 77 ++ "...".data) else t2

/-! ## Basic lookup and update lemmas -/

theorem lookup_setKey_self (d : Dict) (k : String) (v : JVal) :
    lookupKey (setKey d k v) k = some v := by
  induction d with
  | nil => simp [setKey, lookupKey]
  | cons p rest ih =>
      by_cases h : p.1 = k
      · simp [setKey, lookupKey, h]
      · simp [setKey, lookupKey, h, ih]

theorem lookup_setKey_other (d : Dict) (k k' : String) (v : JVal) (h : k' ≠ k) :
    lookupKey (setKey d k v) k' = lookupKey d k' := by
  have hkk : ¬ k = k' := fun hc => h hc.symm
  induction d with
  | nil => simp [setKey, lookupKey, hkk]
  | cons p rest ih =>
      by_cases hp : p.1 = k
      · simp [setKey, lookupKey, hp, hkk]
      · simp [setKey, lookupKey, hp, ih]

theorem lookup_ensureKey_other (d : Dict) (k k' : String) (v : JVal) (h : k' ≠ k) :
    lookupKey (ensureKey d k v) k' = lookupKey d k' := by
  unfold ensureKey
  by_cases ht : truthyAt d k
  · simp [ht]
  · simp [ht, lookup_setKey_other d k k' v h]

theorem truthyAt_ensureKey_self (d : Dict) (k : String) (v : JVal) (hv : truthy v = true) :
    truthyAt (ensureKey d k v) k = true := by
  unfold ensureKey
  by_cases ht : truthyAt d k = true
  · rw [if_pos ht]
    exact ht
  · rw [if_neg ht]
    unfold truthyAt
    rw [lookup_setKey_self d k v]
    exact hv

theorem truthyAt_ensureKey_mono (d : Dict) (k k' : String) (v : JVal)
    (h : truthyAt d k = true) : truthyAt (ensureKey d k' v) k = true := by
  by_cases hk : k' = k
  · subst hk
    unfold ensureKey
    simp [h]
  · unfold truthyAt
    rw [lookup_ensureKey_other d k' k v (fun hc => hk hc.symm)]
    exact h

/-! ## Lemmas about the defaults loop -/

theorem truthyAt_ensureFold_mono (ds : List (String × JVal)) (d : Dict) (k : String)
    (h : truthyAt d k = true) :
    truthyAt (ds.foldl (fun d p => ensureKey d p.1 p.2) d) k = true := by
  induction ds generalizing d with
  | nil => exact h
  | cons p rest ih =>
      simp only [List.foldl_cons]
      exact ih (ensureKey d p.1 p.2) (truthyAt_ensureKey_mono d k p.1 p.2 h)

theorem truthyAt_ensureFold_of_mem (ds : List (String × JVal)) (d : Dict) (k : String)
    (v : JVal) (hmem : (k, v) ∈ ds) (hall : ∀ p ∈ ds, truthy p.2 = true) :
    truthyAt (ds.foldl (fun d p => ensureKey d p.1 p.2) d) k = true := by
  induction ds generalizing d with
  | nil => cases hmem
  | cons p rest ih =>
      simp only [List.foldl_cons]
      rcases List.mem_cons.mp hmem with heq | hmem'
      · subst heq
        exact truthyAt_ensureFold_mono rest (ensureKey d k v) k
          (truthyAt_ensureKey_self d k v (hall (k, v) (List.mem_cons_self _ _)))
      · exact ih (ensureKey d p.1 p.2) hmem' (fun q hq => hall q (List.mem_cons_of_mem _ hq))

theorem lookup_ensureFold_other (ds : List (String × JVal)) (d : Dict) (k : String)
    (h : k ∉ ds.map Prod.fst) :
    lookupKey (ds.foldl (fun d p => ensureKey d p.1 p.2) d) k = lookupKey d k := by
  induction ds generalizing d with
  | nil => rfl
  | cons p rest ih =>
      simp only [List.map_cons, List.mem_cons, not_or] at h
      simp only [List.foldl_cons]
      rw [ih (ensureKey d p.1 p.2) h.2]
      exact lookup_ensureKey_other d p.1 k p.2 h.1

theorem ensureKey_of_truthy (d : Dict) (k : String) (v : JVal)
    (h : truthyAt d k = true) : ensureKey d k v = d := by
  unfold ensureKey
  rw [if_pos h]

theorem ensureFold_of_truthy (ds : List (String × JVal)) (d : Dict)
    (h : ∀ p ∈ ds, truthyAt d p.1 = true) :
    ds.foldl (fun d p => ensureKey d p.1 p.2) d = d := by
  induction ds with
  | nil => rfl
  | cons p rest ih =>
      simp only [List.foldl_cons]
      rw [ensureKey_of_truthy d p.1 p.2 (h p (List.mem_cons_self _ _))]
      exact ih (fun q hq => h q (List.mem_cons_of_mem _ hq))

/-! ## Lemmas about the enum and array repairs -/

theorem lookup_fixEnum_self (d : Dict) (k : String) (allowed : List String)
    (hm : "Medium" ∈ allowed) :
    ∃ s, lookupKey (fixEnum d k allowed) k = some (.str s) ∧ s ∈ allowed := by
  unfold fixEnum
  cases hl : lookupKey d k with
  | none => exact ⟨"Medium", by rw [lookup_setKey_self], hm⟩
  | some v =>
      cases v with
      | str s =>
          by_cases hc : s ∈ allowed
          · exact ⟨s, by simp [hc, hl], hc⟩
          · exact ⟨"Medium", by simp [hc, lookup_setKey_self], hm⟩
      | num n => exact ⟨"Medium", by rw [lookup_setKey_self], hm⟩
      | bool b => exact ⟨"Medium", by rw [lookup_setKey_self], hm⟩
      | null => exact ⟨"Medium", by rw [lookup_setKey_self], hm⟩
      | arr l => exact ⟨"Medium", by rw [lookup_setKey_self], hm⟩
      | obj l => exact ⟨"Medium", by rw [lookup_setKey_self], hm⟩

theorem lookup_fixEnum_other (d : Dict) (k k' : String) (allowed : List String)
    (h : k' ≠ k) : lookupKey (fixEnum d k allowed) k' = lookupKey d k' := by
  unfold fixEnum
  cases hl : lookupKey d k with
  | none => exact lookup_setKey_other d k k' _ h
  | some v =>
      cases v with
      | str s =>
          by_cases hc : s ∈ allowed
          · simp [hc]
          · simp [hc, lookup_setKey_other d k k' _ h]
      | num n => exact lookup_setKey_other d k k' _ h
      | bool b => exact lookup_setKey_other d k k' _ h
      | null => exact lookup_setKey_other d k k' _ h
      | arr l => exact lookup_setKey_other d k k' _ h
      | obj l => exact lookup_setKey_other d k k' _ h

theorem fixEnum_of_allowed (d : Dict) (k : String) (allowed : List String)
    (s : String) (hl : lookupKey d k = some (.str s)) (hs : s ∈ allowed) :
    fixEnum d k allowed = d := by
  unfold fixEnum
  rw [hl]
  simp [hs]

theorem lookup_fixArr_self (d : Dict) (k : String) (ldef : List JVal)
    (ht : truthyAt d k = true) (hne : ldef ≠ []) :
    ∃ l, lookupKey (fixArr d k (.arr ldef)) k = some (.arr l) ∧ l ≠ [] := by
  unfold fixArr
  cases hl : lookupKey d k with
  | none =>
      exact ⟨ldef, by rw [lookup_setKey_self], hne⟩
  | some v =>
      cases v with
      | arr l =>
          refine ⟨l, by simp [hl], ?_⟩
          unfold truthyAt at ht
          rw [hl] at ht
          simpa [truthy] using ht
      | str s => exact ⟨ldef, by rw [lookup_setKey_self], hne⟩
      | num n => exact ⟨ldef, by rw [lookup_setKey_self], hne⟩
      | bool b => exact ⟨ldef, by rw [lookup_setKey_self], hne⟩
      | null => exact ⟨ldef, by rw [lookup_setKey_self], hne⟩
      | obj l => exact ⟨ldef, by rw [lookup_setKey_self], hne⟩

theorem lookup_fixArr_other (d : Dict) (k k' : String) (defv : JVal)
    (h : k' ≠ k) : lookupKey (fixArr d k defv) k' = lookupKey d k' := by
  unfold fixArr
  cases hl : lookupKey d k with
  | none => exact lookup_setKey_other d k k' _ h
  | some v =>
      cases v with
      | arr l => rfl
      | str s => exact lookup_setKey_other d k k' _ h
      | num n => exact lookup_setKey_other d k k' _ h
      | bool b => exact lookup_setKey_other d k k' _ h
      | null => exact lookup_setKey_other d k k' _ h
      | obj l => exact lookup_setKey_other d k k' _ h

theorem fixArr_of_arr (d : Dict) (k : String) (defv : JVal) (l : List JVal)
    (hl : lookupKey d k = some (.arr l)) : fixArr d k defv = d := by
  unfold fixArr
  rw [hl]

/-! ## The post-state of validate_and_fix_issue_data -/

theorem truthyAt_of_lookup_eq (d d' : Dict) (k : String)
    (h : lookupKey d k = lookupKey d' k) : truthyAt d k = truthyAt d' k := by
  unfold truthyAt
  rw [h]

theorem truthyAt_of_lookup (d : Dict) (k : String) (v : JVal)
    (hl : lookupKey d k = some v) (hv : truthy v = true) : truthyAt d k = true := by
  unfold truthyAt
  rw [hl]
  exact hv

theorem truthy_arr_of_ne (l : List JVal) (h : l ≠ []) : truthy (.arr l) = true := by
  cases l with
  | nil => exact absurd rfl h
  | cons x xs => rfl

theorem ensureDefaults_truthyAt (d : Dict) (k : String) (v : JVal)
    (hmem : (k, v) ∈ canonicalDefaults) : truthyAt (ensureDefaults d) k = true :=
  truthyAt_ensureFold_of_mem canonicalDefaults d k v hmem (by decide)

theorem validateAndFix_complete (d : Dict) : CompleteDict (validateAndFix d) := by
  simp only [validateAndFix]
  set d1 := ensureDefaults d with hd1
  have htT : truthyAt d1 "title" = true :=
    ensureDefaults_truthyAt d _ (.str "AI-Generated Repository Enhancement")
      (by simp [canonicalDefaults])
  have htB : truthyAt d1 "body" = true :=
    ensureDefaults_truthyAt d _
      (.str "AI-generated feature suggestion based on repository analysis.")
      (by simp [canonicalDefaults])
  have htIE : truthyAt d1 "implementation_estimate" = true :=
    ensureDefaults_truthyAt d _ (.str "2-3 weeks") (by simp [canonicalDefaults])
  have htL : truthyAt d1 "labels" = true :=
    ensureDefaults_truthyAt d _ (.arr [.str "enhancement", .str "ai-generated"])
      (by simp [canonicalDefaults])
  have htTR : truthyAt d1 "technical_requirements" = true :=
    ensureDefaults_truthyAt d _
      (.arr [.str "Implementation planning", .str "Code development"])
      (by simp [canonicalDefaults])
  have htAC : truthyAt d1 "acceptance_criteria" = true :=
    ensureDefaults_truthyAt d _ (.arr [.str "Feature implemented", .str "Tests pass"])
      (by simp [canonicalDefaults])
  set d2 := fixEnum d1 "difficulty" ["Easy", "Medium", "Hard"] with hd2
  set d3 := fixEnum d2 "priority" ["Low", "Medium", "High"] with hd3
  set d4 := fixArr d3 "labels" (.arr [.str "enhancement", .str "ai-generated"]) with hd4
  set d5 := fixArr d4 "technical_requirements"
      (.arr [.str "Implementation planning", .str "Code development"]) with hd5
  refine ⟨?_, ?_, ?_, ?_, ?_, ?_, ?_, ?_⟩
  · rw [truthyAt_of_lookup_eq _ d1 _ (by
      rw [lookup_fixArr_other _ _ _ _ (by decide), hd5,
        lookup_fixArr_other _ _ _ _ (by decide), hd4,
        lookup_fixArr_other _ _ _ _ (by decide), hd3,
        lookup_fixEnum_other _ _ _ _ (by decide), hd2,
        lookup_fixEnum_other _ _ _ _ (by decide)])]
    exact htT
  · rw [truthyAt_of_lookup_eq _ d1 _ (by
      rw [lookup_fixArr_other _ _ _ _ (by decide), hd5,
        lookup_fixArr_other _ _ _ _ (by decide), hd4,
        lookup_fixArr_other _ _ _ _ (by decide), hd3,
        lookup_fixEnum_other _ _ _ _ (by decide), hd2,
        lookup_fixEnum_other _ _ _ _ (by decide)])]
    exact htB
  · rw [truthyAt_of_lookup_eq _ d1 _ (by
      rw [lookup_fixArr_other _ _ _ _ (by decide), hd5,
        lookup_fixArr_other _ _ _ _ (by decide), hd4,
        lookup_fixArr_other _ _ _ _ (by decide), hd3,
        lookup_fixEnum_other _ _ _ _ (by decide), hd2,
        lookup_fixEnum_other _ _ _ _ (by decide)])]
    exact htIE
  · have heq : lookupKey (fixArr d5 "acceptance_criteria"
        (.arr [.str "Feature implemented", .str "Tests pass"])) "difficulty"
        = lookupKey d2 "difficulty" := by
      rw [lookup_fixArr_other _ _ _ _ (by decide), hd5,
        lookup_fixArr_other _ _ _ _ (by decide), hd4,
        lookup_fixArr_other _ _ _ _ (by decide), hd3,
        lookup_fixEnum_other _ _ _ _ (by decide)]
    rw [heq, hd2]
    exact lookup_fixEnum_self d1 "difficulty" _ (by decide)
  · have heq : lookupKey (fixArr d5 "acceptance_criteria"
        (.arr [.str "Feature implemented", .str "Tests pass"])) "priority"
        = lookupKey d3 "priority" := by
      rw [lookup_fixArr_other _ _ _ _ (by decide), hd5,
        lookup_fixArr_other _ _ _ _ (by decide), hd4,
        lookup_fixArr_other _ _ _ _ (by decide)]
    rw [heq, hd3]
    exact lookup_fixEnum_self d2 "priority" _ (by decide)
  · have heq : lookupKey (fixArr d5 "acceptance_criteria"
        (.arr [.str "Feature implemented", .str "Tests pass"])) "labels"
        = lookupKey d4 "labels" := by
      rw [lookup_fixArr_other _ _ _ _ (by decide), hd5,
        lookup_fixArr_other _ _ _ _ (by decide)]
    rw [heq, hd4]
    refine lookup_fixArr_self d3 "labels" _ ?_ (List.cons_ne_nil _ _)
    rw [hd3, truthyAt_of_lookup_eq _ d1 _ (by
      rw [lookup_fixEnum_other _ _ _ _ (by decide), hd2,
        lookup_fixEnum_other _ _ _ _ (by decide)])]
    exact htL
  · have heq : lookupKey (fixArr d5 "acceptance_criteria"
        (.arr [.str "Feature implemented", .str "Tests pass"])) "technical_requirements"
        = lookupKey d5 "technical_requirements" := by
      rw [lookup_fixArr_other _ _ _ _ (by decide)]
    rw [heq, hd5]
    refine lookup_fixArr_self d4 "technical_requirements" _ ?_ (List.cons_ne_nil _ _)
    rw [hd4, truthyAt_of_lookup_eq _ d1 _ (by
      rw [lookup_fixArr_other _ _ _ _ (by decide), hd3,
        lookup_fixEnum_other _ _ _ _ (by decide), hd2,
        lookup_fixEnum_other _ _ _ _ (by decide)])]
    exact htTR
  · refine lookup_fixArr_self d5 "acceptance_criteria" _ ?_ (List.cons_ne_nil _ _)
    rw [hd5, truthyAt_of_lookup_eq _ d1 _ (by
      rw [lookup_fixArr_other _ _ _ _ (by decide), hd4,
        lookup_fixArr_other _ _ _ _ (by decide), hd3,
        lookup_fixEnum_other _ _ _ _ (by decide), hd2,
        lookup_fixEnum_other _ _ _ _ (by decide)])]
    exact htAC

theorem validateAndFix_of_complete (d : Dict) (h : CompleteDict d) :
    validateAndFix d = d := by
  obtain ⟨hT, hB, hIE, ⟨sd, hld, hsd⟩, ⟨sp, hlp, hsp⟩,
    ⟨ll, hll, hlne⟩, ⟨lt, hlt, htne⟩, ⟨la, hla, hane⟩⟩ := h
  have htD : truthyAt d "difficulty" = true := by
    refine truthyAt_of_lookup d _ _ hld ?_
    simp only [List.mem_cons, List.not_mem_nil, or_false] at hsd
    rcases hsd with h | h | h <;> subst h <;> decide
  have htP : truthyAt d "priority" = true := by
    refine truthyAt_of_lookup d _ _ hlp ?_
    simp only [List.mem_cons, List.not_mem_nil, or_false] at hsp
    rcases hsp with h | h | h <;> subst h <;> decide
  have htL : truthyAt d "labels" = true :=
    truthyAt_of_lookup d _ _ hll (truthy_arr_of_ne _ hlne)
  have htTR : truthyAt d "technical_requirements" = true :=
    truthyAt_of_lookup d _ _ hlt (truthy_arr_of_ne _ htne)
  have htAC : truthyAt d "acceptance_criteria" = true :=
    truthyAt_of_lookup d _ _ hla (truthy_arr_of_ne _ hane)
  have hens : ensureDefaults d = d := by
    refine ensureFold_of_truthy canonicalDefaults d ?_
    intro p hp
    fin_cases hp <;> assumption
  simp only [validateAndFix, hens,
    fixEnum_of_allowed d "difficulty" _ sd hld hsd,
    fixEnum_of_allowed d "priority" _ sp hlp hsp,
    fixArr_of_arr d "labels" _ ll hll,
    fixArr_of_arr d "technical_requirements" _ lt hlt,
    fixArr_of_arr d "acceptance_criteria" _ la hla]

/-- validate_and_fix_issue_data only ever assigns to the eight canonical
keys, so every other key keeps its original binding. -/
theorem validateAndFix_frame (d : Dict) (k : String) (h : k ∉ canonicalKeys) :
    lookupKey (validateAndFix d) k = lookupKey d k := by
  have h8 : k ≠ "title" ∧ k ≠ "body" ∧ k ≠ "difficulty" ∧ k ≠ "priority" ∧
      k ≠ "labels" ∧ k ≠ "implementation_estimate" ∧
      k ≠ "technical_requirements" ∧ k ≠ "acceptance_criteria" := by
    refine ⟨?_, ?_, ?_, ?_, ?_, ?_, ?_, ?_⟩ <;>
      (intro hc; subst hc; exact h (by decide))
  obtain ⟨h1, h2, h3, h4, h5, h6, h7, h8'⟩ := h8
  simp only [validateAndFix]
  rw [lookup_fixArr_other _ _ _ _ h8', lookup_fixArr_other _ _ _ _ h7,
    lookup_fixArr_other _ _ _ _ h5, lookup_fixEnum_other _ _ _ _ h4,
    lookup_fixEnum_other _ _ _ _ h3]
  refine lookup_ensureFold_other canonicalDefaults d k ?_
  intro hc
  simp only [canonicalDefaults, List.map_cons, List.map_nil, List.mem_cons,
    List.not_mem_nil, or_false] at hc
  rcases hc with hc | hc | hc | hc | hc | hc | hc | hc <;> subst hc <;>
    first
    | exact h1 rfl
    | exact h2 rfl
    | exact h3 rfl
    | exact h4 rfl
    | exact h5 rfl
    | exact h6 rfl
    | exact h7 rfl
    | exact h8' rfl

theorem truthy_str_of_mem {s : String} {l : List String} (hs : s ∈ l)
    (h : l.all (fun a => !strIsEmpty a) = true) : truthy (JVal.str s) = true := by
  have hne := List.all_eq_true.mp h s hs
  simpa [truthy] using hne

/-! ## Claim C2 -/

/-- C2: for every input record the defaulting pass returns a record in
which all eight canonical fields are present with truthy values,
difficulty and priority lie in their enumerations (anything outside is
coerced to Medium, hence the membership), the three sequence fields are
non-empty lists, and the JSON extraction path returns either exactly
such a completed record or an explicit failure, never a partial
record. -/
theorem C2_normalizer_always_complete (d : Dict) :
    truthyAt (validateAndFix d) "title" = true ∧
    truthyAt (validateAndFix d) "body" = true ∧
    truthyAt (validateAndFix d) "difficulty" = true ∧
    truthyAt (validateAndFix d) "priority" = true ∧
    truthyAt (validateAndFix d) "labels" = true ∧
    truthyAt (validateAndFix d) "implementation_estimate" = true ∧
    truthyAt (validateAndFix d) "technical_requirements" = true ∧
    truthyAt (validateAndFix d) "acceptance_criteria" = true ∧
    (∃ s, lookupKey (validateAndFix d) "difficulty" = some (.str s) ∧
      s ∈ ["Easy", "Medium", "Hard"]) ∧
    (∃ s, lookupKey (validateAndFix d) "priority" = some (.str s) ∧
      s ∈ ["Low", "Medium", "High"]) ∧
    (∃ l, lookupKey (validateAndFix d) "labels" = some (.arr l) ∧ l ≠ []) ∧
    (∃ l, lookupKey (validateAndFix d) "technical_requirements" = some (.arr l) ∧ l ≠ []) ∧
    (∃ l, lookupKey (validateAndFix d) "acceptance_criteria" = some (.arr l) ∧ l ≠ []) ∧
    (extractJsonFromResponse (some d) = none ∨
      extractJsonFromResponse (some d) = some (validateAndFix d)) := by
  obtain ⟨hT, hB, hIE, ⟨sd, hld, hsd⟩, ⟨sp, hlp, hsp⟩, ⟨ll, hll, hl1⟩,
    ⟨lt, hlt, hl2⟩, ⟨la, hla, hl3⟩⟩ := validateAndFix_complete d
  refine ⟨hT, hB,
    truthyAt_of_lookup _ _ _ hld (truthy_str_of_mem hsd (by decide)),
    truthyAt_of_lookup _ _ _ hlp (truthy_str_of_mem hsp (by decide)),
    truthyAt_of_lookup _ _ _ hll (truthy_arr_of_ne _ hl1),
    hIE,
    truthyAt_of_lookup _ _ _ hlt (truthy_arr_of_ne _ hl2),
    truthyAt_of_lookup _ _ _ hla (truthy_arr_of_ne _ hl3),
    ⟨sd, hld, hsd⟩, ⟨sp, hlp, hsp⟩, ⟨ll, hll, hl1⟩, ⟨lt, hlt, hl2⟩, ⟨la, hla, hl3⟩, ?_⟩
  by_cases hc : (requiredFieldsExtract.all fun f => hasKey d f) = true
  · refine Or.inr ?_
    show (if (requiredFieldsExtract.all fun f => hasKey d f) = true
      then some (validateAndFix d) else none) = some (validateAndFix d)
    rw [if_pos hc]
  · refine Or.inl ?_
    show (if (requiredFieldsExtract.all fun f => hasKey d f) = true
      then some (validateAndFix d) else none) = none
    rw [if_neg hc]

/-! ## Claim C5 -/

/-- C5: the defaulting pass is idempotent: on any record with the four
minimum fields present, applying validate_and_fix_issue_data to its own
output yields the same record as applying it once. -/
theorem C5_validateAndFix_idempotent (x : Dict)
    (_h1 : hasKey x "title" = true) (_h2 : hasKey x "body" = true)
    (_h3 : hasKey x "difficulty" = true) (_h4 : hasKey x "priority" = true) :
    validateAndFix (validateAndFix x) = validateAndFix x :=
  validateAndFix_of_complete (validateAndFix x) (validateAndFix_complete x)

/-- Witness for C5 at a concrete record with the four minimum fields. -/
theorem C5_validateAndFix_idempotent_witness :
    validateAndFix (validateAndFix
      [("title", JVal.str "Add search"), ("body", JVal.str "Full text search."),
       ("difficulty", JVal.str "Easy"), ("priority", JVal.str "Low")]) =
    validateAndFix
      [("title", JVal.str "Add search"), ("body", JVal.str "Full text search."),
       ("difficulty", JVal.str "Easy"), ("priority", JVal.str "Low")] :=
  C5_validateAndFix_idempotent
    [("title", JVal.str "Add search"), ("body", JVal.str "Full text search."),
     ("difficulty", JVal.str "Easy"), ("priority", JVal.str "Low")] rfl rfl rfl rfl

/-! ## Claim C10 -/

/-- C10: the defaulting pass never removes or alters a key outside the
eight canonical fields: any other key keeps its original binding. -/
theorem C10_validateAndFix_frame (d : Dict) (k : String) (h : k ∉ canonicalKeys) :
    lookupKey (validateAndFix d) k = lookupKey d k :=
  validateAndFix_frame d k h

/-- Witness for C10 at a concrete record carrying an extra key. -/
theorem C10_validateAndFix_frame_witness :
    lookupKey (validateAndFix [("extra", JVal.str "kept"), ("title", JVal.str "T")]) "extra" =
    lookupKey [("extra", JVal.str "kept"), ("title", JVal.str "T")] "extra" :=
  C10_validateAndFix_frame [("extra", JVal.str "kept"), ("title", JVal.str "T")] "extra"
    (by decide)

/-! ## Claim C3 -/

/-- C3 counterexample: a successfully parsed candidate holding exactly
the four minimum fields is nevertheless rejected as missing fields by the
extraction step inside synthesize_analysis, which also requires labels,
contradicting the claim that extraction proceeds for every parsed object
containing the four. -/
theorem C3_counterexample :
    requiredFieldsExtract.all (fun f => hasKey
      [("title", JVal.str "Add search"), ("body", JVal.str "Full text search."),
       ("difficulty", JVal.str "Easy"), ("priority", JVal.str "Low")] f) = true ∧
    processAttempt (.parsed
      [("title", JVal.str "Add search"), ("body", JVal.str "Full text search."),
       ("difficulty", JVal.str "Easy"), ("priority", JVal.str "Low")]) = none := by
  exact ⟨rfl, rfl⟩

/-- C3 amended: extract_json_from_response rejects a parsed candidate
exactly when one of the four minimum fields is absent and otherwise hands
it to the defaulting pass, while the inline extraction check of
synthesize_analysis rejects exactly when one of its five required fields
(labels included) is absent. -/
theorem C3_extraction_gate (d : Dict) :
    ((extractJsonFromResponse (some d) = none) ↔
      ∃ f ∈ requiredFieldsExtract, lookupKey d f = none) ∧
    ((processAttempt (.parsed d) = none) ↔
      ∃ f ∈ requiredFieldsSynth, lookupKey d f = none) ∧
    ((∀ f ∈ requiredFieldsExtract, hasKey d f = true) →
      extractJsonFromResponse (some d) = some (validateAndFix d)) := by
  have key : ∀ fs : List String,
      ((if fs.all (fun f => hasKey d f) then some (validateAndFix d) else none) = none ↔
        ∃ f ∈ fs, lookupKey d f = none) := by
    intro fs
    by_cases hc : fs.all (fun f => hasKey d f) = true
    · rw [if_pos hc]
      refine iff_of_false (by simp) ?_
      rintro ⟨f, hf, hn⟩
      have hk := List.all_eq_true.mp hc f hf
      unfold hasKey at hk
      rw [hn] at hk
      cases hk
    · rw [if_neg hc]
      refine iff_of_true rfl ?_
      obtain ⟨f, hf, hp⟩ := List.all_eq_false.mp (Bool.eq_false_iff.mpr hc)
      refine ⟨f, hf, ?_⟩
      unfold hasKey at hp
      cases hl : lookupKey d f with
      | none => rfl
      | some v => rw [hl] at hp; simp at hp
  refine ⟨key requiredFieldsExtract, key requiredFieldsSynth, ?_⟩
  intro hall
  show (if (requiredFieldsExtract.all fun f => hasKey d f) = true
    then some (validateAndFix d) else none) = some (validateAndFix d)
  rw [if_pos (List.all_eq_true.mpr hall)]

/-- Witness for C3 amended: a candidate with all four minimum fields
passes the extract_json_from_response gate. -/
theorem C3_extraction_gate_witness :
    extractJsonFromResponse (some
      [("title", JVal.str "T"), ("body", JVal.str "B"),
       ("difficulty", JVal.str "Hard"), ("priority", JVal.str "High")]) =
    some (validateAndFix
      [("title", JVal.str "T"), ("body", JVal.str "B"),
       ("difficulty", JVal.str "Hard"), ("priority", JVal.str "High")]) :=
  (C3_extraction_gate
    [("title", JVal.str "T"), ("body", JVal.str "B"),
     ("difficulty", JVal.str "Hard"), ("priority", JVal.str "High")]).2.2 (by decide)

/-! ## Claim C1 -/

/-- C1: synthesize_analysis consults at most the first three attempt
outcomes; when all three attempts fail to normalize (transport errors
included) it returns the deterministic smart fallback record; and every
run terminates in a Success or a Fallback result. -/
theorem C1_synthesis_bounded (A A' : Nat → AttemptOutcome)
    (agentResponses : List String) (repoUrl : String)
    (hagree : ∀ i, i < 3 → A i = A' i) :
    synthesizeAnalysis A agentResponses repoUrl =
      synthesizeAnalysis A' agentResponses repoUrl ∧
    ((processAttempt (A 0) = none ∧ processAttempt (A 1) = none ∧
        processAttempt (A 2) = none) →
      synthesizeAnalysis A agentResponses repoUrl =
        .fallback (createSmartFallback agentResponses repoUrl)) ∧
    ((∃ r, synthesizeAnalysis A agentResponses repoUrl = .success r) ∨
      synthesizeAnalysis A agentResponses repoUrl =
        .fallback (createSmartFallback agentResponses repoUrl)) := by
  have hrange : ∀ B : Nat → AttemptOutcome, (List.range 3).map B = [B 0, B 1, B 2] := by
    intro B
    rfl
  refine ⟨?_, ?_, ?_⟩
  · unfold synthesizeAnalysis
    rw [hrange A, hrange A', ← hagree 0 (by omega), ← hagree 1 (by omega),
      ← hagree 2 (by omega)]
  · rintro ⟨hn0, hn1, hn2⟩
    unfold synthesizeAnalysis
    rw [hrange A]
    simp [synthLoop, hn0, hn1, hn2]
  · unfold synthesizeAnalysis
    cases hl : synthLoop ((List.range 3).map A) with
    | some r => exact Or.inl ⟨r, rfl⟩
    | none => exact Or.inr rfl

/-- Witness for C1: three transport-aborted attempts end in the smart
fallback. -/
theorem C1_synthesis_bounded_witness :
    synthesizeAnalysis (fun _ => AttemptOutcome.transportError) [] "https://github.com/acme/x" =
      SynthResult.fallback (createSmartFallback [] "https://github.com/acme/x") :=
  (C1_synthesis_bounded (fun _ => AttemptOutcome.transportError)
    (fun _ => AttemptOutcome.transportError) [] "https://github.com/acme/x"
    (fun _ _ => rfl)).2.1 ⟨rfl, rfl, rfl⟩

/-! ## Claim C4: the fallback scoring -/

theorem listMaxVal_cons (x : String × Nat) (xs : List (String × Nat)) :
    listMaxVal (x :: xs) = max x.2 (listMaxVal xs) := rfl

theorem pickMax_eq_find (l : List (String × Nat)) : ∀ b : String × Nat,
    some (pickMax b l) = (b :: l).find? (fun x => listMaxVal (b :: l) ≤ x.2) := by
  induction l with
  | nil =>
      intro b
      have hM : listMaxVal [b] = b.2 := by
        simp [listMaxVal]
      rw [hM]
      simp [pickMax, List.find?]
  | cons y ys ih =>
      intro b
      by_cases hby : b.2 < y.2
      · have hM : listMaxVal (b :: y :: ys) = listMaxVal (y :: ys) := by
          rw [listMaxVal_cons]
          exact max_eq_right (le_trans (le_of_lt hby) (le_max_left _ _))
        have hMb : ¬ listMaxVal (b :: y :: ys) ≤ b.2 := by
          rw [hM, listMaxVal_cons]
          have h1 : y.2 ≤ max y.2 (listMaxVal ys) := le_max_left _ _
          omega
        have hpick : pickMax b (y :: ys) = pickMax y ys := by
          simp [pickMax, hby]
        rw [hpick, List.find?_cons_of_neg _ (by simpa using hMb), hM]
        exact ih y
      · have hyb : y.2 ≤ b.2 := le_of_not_lt hby
        have hM : listMaxVal (b :: y :: ys) = listMaxVal (b :: ys) := by
          rw [listMaxVal_cons, listMaxVal_cons, listMaxVal_cons, ← max_assoc,
            max_eq_left hyb]
        have hpick : pickMax b (y :: ys) = pickMax b ys := by
          simp [pickMax, hby]
        rw [hpick, hM]
        by_cases hPb : listMaxVal (b :: ys) ≤ b.2
        · rw [List.find?_cons_of_pos _ (by simpa using hPb)]
          have ihb := ih b
          rw [List.find?_cons_of_pos _ (by simpa using hPb)] at ihb
          exact ihb
        · have hPy : ¬ listMaxVal (b :: ys) ≤ y.2 := fun hc => hPb (le_trans hc hyb)
          rw [List.find?_cons_of_neg _ (by simpa using hPb),
            List.find?_cons_of_neg _ (by simpa using hPy)]
          have ihb := ih b
          rw [List.find?_cons_of_neg _ (by simpa using hPb)] at ihb
          exact ihb

theorem listMaxVal_filter_pos (l : List (String × Nat)) :
    listMaxVal (l.filter fun x => 0 < x.2) = listMaxVal l := by
  induction l with
  | nil => rfl
  | cons x xs ih =>
      by_cases hx : 0 < x.2
      · rw [List.filter_cons_of_pos (by simpa using hx), listMaxVal_cons,
          listMaxVal_cons, ih]
      · have hx0 : x.2 = 0 := by omega
        rw [List.filter_cons_of_neg (by simpa using hx), listMaxVal_cons, ih, hx0]
        omega

theorem listMaxVal_eq_zero (l : List (String × Nat))
    (h : l.filter (fun x => 0 < x.2) = []) : listMaxVal l = 0 := by
  rw [← listMaxVal_filter_pos, h]
  rfl

theorem find?_filter_pos (l : List (String × Nat)) (M : Nat) (hM : 1 ≤ M) :
    (l.filter fun x => 0 < x.2).find? (fun x => M ≤ x.2) =
      l.find? (fun x => M ≤ x.2) := by
  induction l with
  | nil => rfl
  | cons x xs ih =>
      by_cases hx : 0 < x.2
      · rw [List.filter_cons_of_pos (by simpa using hx)]
        by_cases hP : M ≤ x.2
        · rw [List.find?_cons_of_pos _ (by simpa using hP),
            List.find?_cons_of_pos _ (by simpa using hP)]
        · rw [List.find?_cons_of_neg _ (by simpa using hP),
            List.find?_cons_of_neg _ (by simpa using hP), ih]
      · have hP : ¬ M ≤ x.2 := by omega
        rw [List.filter_cons_of_neg (by simpa using hx),
          List.find?_cons_of_neg _ (by simpa using hP), ih]

theorem bestFeature_eq_claimed (agentResponses : List String) :
    bestFeature agentResponses = claimedBestFeature agentResponses := by
  have key : ∀ scored : List (String × Nat),
      (match pyMaxByVal (scored.filter (fun x => 0 < x.2)) with
        | some p => p.1
        | none => "search") =
      (if listMaxVal scored = 0 then "search"
       else
        match scored.find? (fun x => listMaxVal scored ≤ x.2) with
        | some p => p.1
        | none => "search") := by
    intro scored
    cases hfilter : scored.filter (fun x => 0 < x.2) with
    | nil =>
        rw [listMaxVal_eq_zero scored hfilter]
        simp [pyMaxByVal]
    | cons x xs =>
        have hxpos : 0 < x.2 := by
          have hmem : x ∈ scored.filter (fun y => 0 < y.2) := by
            rw [hfilter]
            exact List.mem_cons_self _ _
          simpa using (List.mem_filter.mp hmem).2
        have hMfil : listMaxVal (x :: xs) = listMaxVal scored := by
          rw [← hfilter, listMaxVal_filter_pos]
        have hMpos : 1 ≤ listMaxVal scored := by
          have h1 : x.2 ≤ listMaxVal (x :: xs) := by
            rw [listMaxVal_cons]
            exact le_max_left _ _
          omega
        have hfind : scored.find? (fun y => listMaxVal scored ≤ y.2) =
            some (pickMax x xs) := by
          rw [← find?_filter_pos scored (listMaxVal scored) hMpos, hfilter, ← hMfil,
            ← pickMax_eq_find]
        rw [if_neg (by omega), hfind]
        simp [pyMaxByVal]
  exact key (featurePatterns.map
    (fun p => (p.1, keywordScore (combinedText agentResponses) p.2)))

/-- C4 counterexample: opinion text scoring highest for the database
category selects database as best feature, yet feature_templates has no
database entry, so the fallback instantiates the search template rather
than a template for the chosen category. -/
theorem C4_counterexample :
    bestFeature ["database db storage persistence data"] = "database" ∧
    featureTemplates.lookup "database" = none ∧
    lookupKey (createSmartFallback ["database db storage persistence data"]
        "https://github.com/acme/x") "title" =
      some (.str "Add Advanced Search and Filtering Capabilities") ∧
    lookupKey (createSmartFallback ["database db storage persistence data"]
        "https://github.com/acme/x") "labels" =
      some (.arr [.str "enhancement", .str "ai-generated", .str "database"]) := by
  refine ⟨by decide, rfl, rfl, rfl⟩

/-- C4 amended: the fallback concatenates the opinions, scores the fixed
eight-entry keyword table by counting keyword hits, and picks the highest
scoring category with ties broken by table order and search as the
no-hit default (the refinement equation below); it instantiates the
template of the chosen category when one of the four templates exists and
the search template otherwise, always recording the chosen category in
the labels; authentication/login/oauth text selects the authentication
template and empty or keyword-free text the search template. -/
theorem C4_fallback_scoring (agentResponses : List String) (repoUrl : String) :
    bestFeature agentResponses = claimedBestFeature agentResponses ∧
    lookupKey (createSmartFallback agentResponses repoUrl) "labels" =
      some (.arr [.str "enhancement", .str "ai-generated",
        .str (bestFeature agentResponses)]) ∧
    lookupKey (createSmartFallback ["authentication login oauth"] repoUrl) "title" =
      some (.str "Implement User Authentication System") ∧
    lookupKey (createSmartFallback [] repoUrl) "title" =
      some (.str "Add Advanced Search and Filtering Capabilities") ∧
    lookupKey (createSmartFallback ["hello world"] repoUrl) "title" =
      some (.str "Add Advanced Search and Filtering Capabilities") :=
  ⟨bestFeature_eq_claimed agentResponses, rfl, rfl, rfl, rfl⟩

/-! ## Claim C6 -/

/-- C6: the description keyword cascade precedes every name check: a
repository whose lowered description contains the machine learning
keyword classifies as ai_ml whatever its name, topics or language. -/
theorem C6_description_beats_name (rd : RepoData)
    (h : strContains (pyLower rd.description) "machine learning" = true) :
    classifyProjectType rd = "ai_ml" := by
  have hdesc : (!strIsEmpty (pyLower rd.description)) = true := by
    cases he : strIsEmpty (pyLower rd.description) with
    | false => rfl
    | true =>
        exfalso
        have hemp : (pyLower rd.description).data = [] := by
          simpa [strIsEmpty, List.isEmpty_iff] using he
        rw [strContains] at h
        rw [hemp] at h
        simp [List.isPrefixOf] at h
  have hany : (aiKeywords.any fun kw => strContains (pyLower rd.description) kw) = true :=
    List.any_eq_true.mpr ⟨"machine learning", by decide, h⟩
  simp only [classifyProjectType]
  rw [if_pos hdesc, if_pos hany]

/-- Witness for C6: description mentioning machine learning wins over a
crawler name. -/
theorem C6_description_beats_name_witness :
    classifyProjectType
      { name := "news-crawler", language := "python",
        description := "Machine Learning toolkit", topics := [] } = "ai_ml" :=
  C6_description_beats_name
    { name := "news-crawler", language := "python",
      description := "Machine Learning toolkit", topics := [] } (by decide)

/-! ## Claim C7 -/

theorem mem_dedupFold (l : List String) : ∀ (acc : List String) (x : String),
    (x ∈ l.foldl (fun acc t => if !acc.contains t then acc ++ [t] else acc) acc) ↔
      (x ∈ acc ∨ x ∈ l) := by
  induction l with
  | nil =>
      intro acc x
      simp
  | cons t ts ih =>
      intro acc x
      simp only [List.foldl_cons]
      rw [ih]
      by_cases hc : t ∈ acc
      · rw [if_neg (by simp [hc])]
        simp only [List.mem_cons]
        constructor
        · rintro (h | h)
          · exact Or.inl h
          · exact Or.inr (Or.inr h)
        · rintro (h | h | h)
          · exact Or.inl h
          · exact Or.inl (h ▸ hc)
          · exact Or.inr h
      · rw [if_pos (by simp [hc])]
        simp only [List.mem_append, List.mem_singleton, List.mem_cons]
        tauto

theorem nodup_dedupFold (l : List String) : ∀ acc : List String, acc.Nodup →
    (l.foldl (fun acc t => if !acc.contains t then acc ++ [t] else acc) acc).Nodup := by
  induction l with
  | nil =>
      intro acc h
      exact h
  | cons t ts ih =>
      intro acc h
      simp only [List.foldl_cons]
      by_cases hc : t ∈ acc
      · rw [if_neg (by simp [hc])]
        exact ih acc h
      · rw [if_pos (by simp [hc])]
        refine ih _ ?_
        simp [List.nodup_append, h, hc]

/-- C7: the title/body classifier and the changed-file classifier run
independently and get_comprehensive_analysis_plan unions their results
without duplicates, neither overriding the other; in particular a PR
changing test_utils.py and titled Fix null pointer in parser carries both
feature and bugfix in its pr_types. -/
theorem C7_pr_type_union (title description : String) (fileChanges : List String) :
    (∀ t : String, (t ∈ comprehensivePrTypes title description fileChanges) ↔
      (t ∈ analyzePrTitleDescription title description ∨
        t ∈ classifyPrByFiles fileChanges)) ∧
    (comprehensivePrTypes title description fileChanges).Nodup ∧
    "feature" ∈ comprehensivePrTypes "Fix null pointer in parser" "" ["test_utils.py"] ∧
    "bugfix" ∈ comprehensivePrTypes "Fix null pointer in parser" "" ["test_utils.py"] ∧
    analyzePrTitleDescription "Fix null pointer in parser" "" = ["bugfix"] ∧
    classifyPrByFiles ["test_utils.py"] = ["feature"] := by
  refine ⟨?_, ?_, by decide, by decide, by decide, by decide⟩
  · intro t
    unfold comprehensivePrTypes
    rw [mem_dedupFold]
    simp
  · exact nodup_dedupFold _ [] List.nodup_nil

/-! ## Claim C8 -/

/-- C8: a repository described as a web scraping tool classifies as
scraping, the resulting feature list contains the seeded data storage and
rate limiting entries with their seeded descriptions and no duplicates,
and the generic CI/CD and monitoring fallback entries are absent because
the project-specific list is non-empty. -/
theorem C8_scraping_end_to_end :
    classifyProjectType
      { name := "scraper-bot", language := "", description := "a web scraping tool",
        topics := [] } = "scraping" ∧
    ({ name := "Data Storage",
       description := "Persistent data storage with database integration for scraped data management" } : FeatureEntry) ∈
      processRepositoryQuery
        { name := "scraper-bot", language := "", description := "a web scraping tool",
          topics := [] } ∧
    ({ name := "Rate Limiting",
       description := "Smart rate limiting to respect website policies and avoid detection" } : FeatureEntry) ∈
      processRepositoryQuery
        { name := "scraper-bot", language := "", description := "a web scraping tool",
          topics := [] } ∧
    (processRepositoryQuery
      { name := "scraper-bot", language := "", description := "a web scraping tool",
        topics := [] }).Nodup ∧
    (processRepositoryQuery
      { name := "scraper-bot", language := "", description := "a web scraping tool",
        topics := [] }).all
      (fun e => e.name != "CI/CD Pipeline" && e.name != "Monitoring Dashboard") = true := by
  refine ⟨by decide, by decide, by decide, by decide, by decide⟩

/-! ## Claim C9 -/

theorem lookup_ensureFold_of_truthy (ds : List (String × JVal)) (d : Dict) (k : String)
    (h : truthyAt d k = true) :
    lookupKey (ds.foldl (fun d p => ensureKey d p.1 p.2) d) k = lookupKey d k := by
  induction ds generalizing d with
  | nil => rfl
  | cons p rest ih =>
      simp only [List.foldl_cons]
      have hpres : lookupKey (ensureKey d p.1 p.2) k = lookupKey d k := by
        by_cases hk : p.1 = k
        · subst hk
          rw [ensureKey_of_truthy d p.1 p.2 h]
        · exact lookup_ensureKey_other d p.1 k p.2 (fun hc => hk hc.symm)
      rw [ih _ (truthyAt_ensureKey_mono d k p.1 p.2 h), hpres]

/-- C9 counterexample: the JSON extraction path does not truncate titles:
a parsed record carrying an 81-character title passes extraction and the
defaulting pass with the title intact, longer than 80 characters. -/
theorem C9_counterexample :
    lookupKey (validateAndFix
      [("title", JVal.str (String.mk (List.replicate 81 'a'))),
       ("body", JVal.str "B"), ("difficulty", JVal.str "Easy"),
       ("priority", JVal.str "Low")]) "title" =
      some (.str (String.mk (List.replicate 81 'a'))) ∧
    extractJsonFromResponse (some
      [("title", JVal.str (String.mk (List.replicate 81 'a'))),
       ("body", JVal.str "B"), ("difficulty", JVal.str "Easy"),
       ("priority", JVal.str "Low")]) =
      some (validateAndFix
        [("title", JVal.str (String.mk (List.replicate 81 'a'))),
         ("body", JVal.str "B"), ("difficulty", JVal.str "Easy"),
         ("priority", JVal.str "Low")]) ∧
    (String.mk (List.replicate 81 'a')).length = 81 := by
  refine ⟨rfl, rfl, rfl⟩

/-- C9 amended: only the regex fallback path of parse_direct_response
truncates: its cleaned title is always at most 80 characters, while the
JSON extraction path keeps a present non-empty title verbatim through
the defaulting pass, whatever its length. -/
theorem C9_title_truncation (t : String) (d : Dict) (s : String)
    (hl : lookupKey d "title" = some (.str s)) (hs : strIsEmpty s = false) :
    (cleanDirectTitle t).length ≤ 80 ∧
    lookupKey (validateAndFix d) "title" = some (.str s) := by
  constructor
  · simp only [cleanDirectTitle]
    set l2 := ((String.mk (t.data.dropWhile fun c => !isWordChar c)).data.takeWhile
      fun c => c != '.') with hl2
    by_cases hlen : (String.mk l2).length > 80
    · rw [if_pos hlen]
      have h77 : (l2.take 77).length ≤ 77 := List.length_take_le _ _
      show (l2.take 77 ++ "...".data).length ≤ 80
      rw [List.length_append]
      have h3 : ("...".data).length = 3 := rfl
      omega
    · rw [if_neg hlen]
      show l2.length ≤ 80
      have : (String.mk l2).length = l2.length := rfl
      omega
  · have ht : truthyAt d "title" = true :=
      truthyAt_of_lookup d _ _ hl (by simp [truthy, hs])
    simp only [validateAndFix]
    rw [lookup_fixArr_other _ _ _ _ (by decide), lookup_fixArr_other _ _ _ _ (by decide),
      lookup_fixArr_other _ _ _ _ (by decide), lookup_fixEnum_other _ _ _ _ (by decide),
      lookup_fixEnum_other _ _ _ _ (by decide)]
    unfold ensureDefaults
    rw [lookup_ensureFold_of_truthy canonicalDefaults d "title" ht, hl]

/-- Witness for C9 amended at a concrete raw title and record. -/
theorem C9_title_truncation_witness :
    (cleanDirectTitle "Feature: Add full text search").length ≤ 80 ∧
    lookupKey (validateAndFix [("title", JVal.str "Short title")]) "title" =
      some (JVal.str "Short title") :=
  C9_title_truncation "Feature: Add full text search" [("title", JVal.str "Short title")]
    "Short title" rfl rfl
